import Mathlib

/-!
# Verification of the ssdp-rs transport-discovery core

Shallow embedding of `src/message/mod.rs`: local-address enumeration
(`get_local_addrs`), the loopback/scope filtering loop (`map_local`), the
connector factory (`all_local_connectors`), the protocol constants and the
`MessageType` taxonomy.

External dependencies are embedded as follows:

* The address/scope predicates of Rust's standard library
  (`Ipv4Addr::is_loopback`, `Ipv6Addr::is_loopback`, `Ipv6Addr::is_global`
  and its helpers from the unstable `ip` feature) are translated from
  `libstd/net/ip.rs` of the crate's era.  In particular
  `Ipv6Addr::is_global` treats the documentation range `2001:db8::/32` as
  *not* global (true both in the crate's era and in current Rust).
* The `ifaces` crate's `Interface`/`Kind` types are translated from that
  crate (only the fields/variants the code touches matter).
* `net::IpVersionMode` and `net::connector::UdpConnector` are code of this
  repository that is not under `src/`; they are modelled from the spec
  (see their doc comments).
* The OS itself (interface enumeration outcome, socket bind/configure
  outcome) is nondeterministic and is passed in as explicit parameters.

Errors (`std::io::Result`) are modelled with `Except IoError`.
-/

set_option autoImplicit false

namespace Ssdp

/-- `std::io::Error`, abstracted to an opaque code: the program never
inspects the error, it only propagates it. -/
structure IoError where
  code : Nat
deriving DecidableEq, Repr

/-- Rust `std::net::Ipv4Addr`: four octets. -/
structure Ipv4Addr where
  o0 : Nat
  o1 : Nat
  o2 : Nat
  o3 : Nat
deriving DecidableEq, Repr

/-- `Ipv4Addr::is_loopback` from `libstd/net/ip.rs`: `self.octets()[0] == 127`. -/
def Ipv4Addr.is_loopback (a : Ipv4Addr) : Bool :=
  a.o0 == 127

/-- Rust `std::net::Ipv6Addr`: eight 16-bit segments. -/
structure Ipv6Addr where
  s0 : Nat
  s1 : Nat
  s2 : Nat
  s3 : Nat
  s4 : Nat
  s5 : Nat
  s6 : Nat
  s7 : Nat
deriving DecidableEq, Repr

namespace Ipv6Addr

/-- `Ipv6Addr::is_loopback`: segments are `[0, 0, 0, 0, 0, 0, 0, 1]` (`::1`). -/
def is_loopback (a : Ipv6Addr) : Bool :=
  a == ⟨0, 0, 0, 0, 0, 0, 0, 1⟩

/-- `Ipv6Addr::is_unspecified`: segments are all zero (`::`). -/
def is_unspecified (a : Ipv6Addr) : Bool :=
  a == ⟨0, 0, 0, 0, 0, 0, 0, 0⟩

/-- `Ipv6Addr::is_multicast`: `(self.segments()[0] & 0xff00) == 0xff00`. -/
def is_multicast (a : Ipv6Addr) : Bool :=
  a.s0 &&& 0xff00 == 0xff00

/-- `Ipv6Addr::is_unicast_link_local`: `(self.segments()[0] & 0xffc0) == 0xfe80`. -/
def is_unicast_link_local (a : Ipv6Addr) : Bool :=
  a.s0 &&& 0xffc0 == 0xfe80

/-- `Ipv6Addr::is_unicast_site_local`: `(self.segments()[0] & 0xffc0) == 0xfec0`. -/
def is_unicast_site_local (a : Ipv6Addr) : Bool :=
  a.s0 &&& 0xffc0 == 0xfec0

/-- `Ipv6Addr::is_unique_local`: `(self.segments()[0] & 0xfe00) == 0xfc00`. -/
def is_unique_local (a : Ipv6Addr) : Bool :=
  a.s0 &&& 0xfe00 == 0xfc00

/-- `Ipv6Addr::is_documentation`: first two segments are `0x2001, 0xdb8`
(the `2001:db8::/32` range reserved for documentation). -/
def is_documentation (a : Ipv6Addr) : Bool :=
  a.s0 == 0x2001 && a.s1 == 0xdb8

/-- `Ipv6MulticastScope` from `libstd/net/ip.rs`. -/
inductive MulticastScope where
  | InterfaceLocal
  | LinkLocal
  | RealmLocal
  | AdminLocal
  | SiteLocal
  | OrganizationLocal
  | Global
deriving DecidableEq, Repr

/-- `Ipv6Addr::multicast_scope`: decode the scope nibble of a multicast
address. -/
def multicast_scope (a : Ipv6Addr) : Option MulticastScope :=
  if a.is_multicast then
    match a.s0 &&& 0x000f with
    | 1 => some MulticastScope.InterfaceLocal
    | 2 => some MulticastScope.LinkLocal
    | 3 => some MulticastScope.RealmLocal
    | 4 => some MulticastScope.AdminLocal
    | 5 => some MulticastScope.SiteLocal
    | 8 => some MulticastScope.OrganizationLocal
    | 14 => some MulticastScope.Global
    | _ => none
  else
    none

/-- `Ipv6Addr::is_unicast_global`: a unicast address that is not loopback,
link-local, site-local, unique-local, unspecified or documentation. -/
def is_unicast_global (a : Ipv6Addr) : Bool :=
  !a.is_multicast
    && !a.is_loopback && !a.is_unicast_link_local
    && !a.is_unicast_site_local && !a.is_unique_local
    && !a.is_unspecified && !a.is_documentation

/-- `Ipv6Addr::is_global`: globally-routable, i.e. global-scope multicast
or globally-routable unicast.  Note that the documentation range
`2001:db8::/32` is **not** global under this predicate. -/
def is_global (a : Ipv6Addr) : Bool :=
  match a.multicast_scope with
  | some MulticastScope.Global => true
  | none => a.is_unicast_global
  | some _ => false

end Ipv6Addr

/-- Rust `std::net::SocketAddrV4`: an IPv4 address plus a port. -/
structure SocketAddrV4 where
  ip : Ipv4Addr
  port : Nat
deriving DecidableEq, Repr

/-- Rust `std::net::SocketAddrV6`: an IPv6 address plus port, flow
information and scope id. -/
structure SocketAddrV6 where
  ip : Ipv6Addr
  port : Nat
  flowinfo : Nat
  scope_id : Nat
deriving DecidableEq, Repr

/-- Rust `std::net::SocketAddr`. -/
inductive SocketAddr where
  | V4 : SocketAddrV4 → SocketAddr
  | V6 : SocketAddrV6 → SocketAddr
deriving DecidableEq, Repr

/-- Modelled from the spec: `net::IpVersionMode` (declared outside `src/`):
"IpVersionPolicy: one of {V4Only, V6Only, Any}". -/
inductive IpVersionMode where
  | V4Only
  | V6Only
  | Any
deriving DecidableEq, Repr

/-- Modelled from the spec: `net::connector::UdpConnector` (declared outside
`src/`) is the "TransportEndpoint": it owns one bound, multicast-configured
UDP socket, with attributes "bound local address, configured TTL (optional —
absence means OS default)". -/
structure UdpConnector where
  local_addr : SocketAddr
  ttl : Option Nat
deriving DecidableEq, Repr

/-- Outcome of the OS-level "create UDP socket, bind to address, set
multicast TTL" primitive used by `UdpConnector::new`: `none` means the OS
accepted the bind/configure request, `some e` that it failed with `e`.
Passed in explicitly because it is environment-determined. -/
def BindOracle : Type :=
  SocketAddr → Option Nat → Option IoError

/-- Modelled from the spec: `UdpConnector::new(addr, multicast_ttl)`
(declared outside `src/`) constructs a transport endpoint bound to the given
address with the given TTL, failing with an `IoError` exactly when the
OS-level bind/configure primitive fails. -/
def UdpConnector.new (os : BindOracle) (addr : SocketAddr) (ttl : Option Nat) :
    Except IoError UdpConnector :=
  match os addr ttl with
  | some e => Except.error e
  | none => Except.ok { local_addr := addr, ttl := ttl }

/-! ## Constants and `MessageType` (src/message/mod.rs, lines 23-40) -/

/-- `const UPNP_MULTICAST_IPV4_ADDR: &'static str = "239.255.255.250";` -/
def UPNP_MULTICAST_IPV4_ADDR : String := "239.255.255.250"

/-- `const UPNP_MULTICAST_IPV6_LINK_LOCAL_ADDR: &'static str = "FF02::C";` -/
def UPNP_MULTICAST_IPV6_LINK_LOCAL_ADDR : String := "FF02::C"

/-- `pub const UPNP_MULTICAST_PORT: u16 = 1900;` -/
def UPNP_MULTICAST_PORT : Nat := 1900

/-- `const UPNP_MULTICAST_TTL: u32 = 2;` -/
def UPNP_MULTICAST_TTL : Nat := 2

/-- `enum MessageType { Notify, Search, Response }`. -/
inductive MessageType where
  | Notify
  | Search
  | Response
deriving DecidableEq, Hashable, Repr

/-! ## Address Source (`get_local_addrs`, non-Windows) -/

/-- `ifaces::Kind` from the `ifaces` crate: the classification of an
enumerated interface; `Packet` is a raw packet-capture device. -/
inductive Kind where
  | Packet
  | Link
  | Ipv4
  | Ipv6
  | Unknow (v : Nat)
deriving DecidableEq, Repr

/-- `ifaces::Interface` from the `ifaces` crate (only the fields the code
reads): a name, a kind classification, and an optionally assigned address. -/
structure Interface where
  name : String
  kind : Kind
  addr : Option SocketAddr
deriving DecidableEq, Repr

/-- `get_local_addrs` (non-Windows, src/message/mod.rs lines 99-105): keep
every enumerated interface whose kind is not `Packet`, extract its assigned
address when present.  The outcome of `ifaces::Interface::get_all()` is the
explicit `ifaceResult` parameter (it is an OS query). -/
def get_local_addrs (ifaceResult : Except IoError (List Interface)) :
    Except IoError (List SocketAddr) :=
  match ifaceResult with
  | Except.error e => Except.error e
  | Except.ok ifaceList =>
      Except.ok ((ifaceList.filter (fun iface => iface.kind ≠ Kind.Packet)).filterMap
        (fun iface => iface.addr))

/-! ## `map_local` (src/message/mod.rs lines 59-85) -/

/-- The guard of the `match addr` arms inside `map_local`'s loop:
`SocketAddr::V4(n) if !n.ip().is_loopback()` and
`SocketAddr::V6(n) if !n.ip().is_loopback() && !n.ip().is_global()`;
every other address falls to the `_ => ()` arm. -/
def local_filter : SocketAddr → Bool
  | SocketAddr.V4 n => !n.ip.is_loopback
  | SocketAddr.V6 n => !n.ip.is_loopback && !n.ip.is_global

/-- The `for addr in addrs_iter` loop of `map_local`: for each address
passing `local_filter`, run the closure; `try!` aborts the whole loop on
the closure's error, `Some x` pushes `x`, `None` pushes nothing. -/
def map_local_go {R : Type} (f : SocketAddr → Except IoError (Option R)) :
    List SocketAddr → Except IoError (List R)
  | [] => Except.ok []
  | addr :: rest =>
    if local_filter addr then
      match f addr with
      | Except.error e => Except.error e
      | Except.ok none => map_local_go f rest
      | Except.ok (some x) =>
        match map_local_go f rest with
        | Except.error e => Except.error e
        | Except.ok l => Except.ok (x :: l)
    else
      map_local_go f rest

/-- `map_local` (src/message/mod.rs lines 59-85): `try!(get_local_addrs())`,
then the filtering loop.  The Address Source's outcome is the explicit
`addrsResult` parameter. -/
def map_local {R : Type} (addrsResult : Except IoError (List SocketAddr))
    (f : SocketAddr → Except IoError (Option R)) : Except IoError (List R) :=
  match addrsResult with
  | Except.error e => Except.error e
  | Except.ok addrs => map_local_go f addrs

/-! ## `all_local_connectors` (src/message/mod.rs lines 43-54) -/

/-- The closure passed by `all_local_connectors` to `map_local`:
`match (&filter, addr)` keeps v4 addresses under `V4Only`/`Any` (binding to
`(*n.ip(), 0)`), v6 addresses under `V6Only`/`Any` (binding to `n` itself),
and answers `Ok(None)` otherwise. -/
def connector_closure (os : BindOracle) (multicast_ttl : Option Nat)
    (filter : IpVersionMode) (addr : SocketAddr) :
    Except IoError (Option UdpConnector) :=
  match filter, addr with
  | IpVersionMode.V4Only, SocketAddr.V4 n
  | IpVersionMode.Any, SocketAddr.V4 n =>
      match UdpConnector.new os (SocketAddr.V4 { ip := n.ip, port := 0 }) multicast_ttl with
      | Except.error e => Except.error e
      | Except.ok c => Except.ok (some c)
  | IpVersionMode.V6Only, SocketAddr.V6 n
  | IpVersionMode.Any, SocketAddr.V6 n =>
      match UdpConnector.new os (SocketAddr.V6 n) multicast_ttl with
      | Except.error e => Except.error e
      | Except.ok c => Except.ok (some c)
  | _, _ => Except.ok none

/-- `all_local_connectors` (src/message/mod.rs lines 43-54): run `map_local`
with `connector_closure`. -/
def all_local_connectors (os : BindOracle)
    (addrsResult : Except IoError (List SocketAddr))
    (multicast_ttl : Option Nat) (filter : IpVersionMode) :
    Except IoError (List UdpConnector) :=
  map_local addrsResult (connector_closure os multicast_ttl filter)

/-! ## Spec-side characterizations

The following definitions follow the spec's words, to be compared with the
functions embedded from the source above. -/

/-- Spec-side: which IP versions the policy keeps — "V4Only keeps only v4;
V6Only keeps only v6; Any keeps both". -/
def keeps : IpVersionMode → SocketAddr → Bool
  | IpVersionMode.V4Only, SocketAddr.V4 _ => true
  | IpVersionMode.Any, SocketAddr.V4 _ => true
  | IpVersionMode.V6Only, SocketAddr.V6 _ => true
  | IpVersionMode.Any, SocketAddr.V6 _ => true
  | _, _ => false

/-- Spec-side: the address a surviving source address gets bound to.  The
source binds a v4 survivor to `(*n.ip(), 0)` and a v6 survivor to `n`
itself (the claim under test says "port 0" for both). -/
def bound_target : SocketAddr → SocketAddr
  | SocketAddr.V4 n => SocketAddr.V4 { ip := n.ip, port := 0 }
  | SocketAddr.V6 n => SocketAddr.V6 n

/-- A bind oracle for an OS that accepts every bind/configure request. -/
def okBind : BindOracle := fun _ _ => none

/-- `SocketAddr::port` from `libstd/net/addr.rs`: the port of either kind of
socket address. -/
def SocketAddr.port : SocketAddr → Nat
  | SocketAddr.V4 n => n.port
  | SocketAddr.V6 n => n.port

/-- Whether a socket address is IPv4. -/
def SocketAddr.isV4 : SocketAddr → Bool
  | SocketAddr.V4 _ => true
  | SocketAddr.V6 _ => false

/-- Whether a socket address is IPv6. -/
def SocketAddr.isV6 : SocketAddr → Bool
  | SocketAddr.V4 _ => false
  | SocketAddr.V6 _ => true

/-! ## The spec's synthetic scenario addresses -/

/-- `127.0.0.1` (IPv4 loopback), port 0. -/
def addrLoopback4 : SocketAddr :=
  SocketAddr.V4 { ip := ⟨127, 0, 0, 1⟩, port := 0 }

/-- `192.168.1.5` (ordinary private IPv4), port 0. -/
def addrPrivate4 : SocketAddr :=
  SocketAddr.V4 { ip := ⟨192, 168, 1, 5⟩, port := 0 }

/-- `::1` (IPv6 loopback), port 0. -/
def addrLoopback6 : SocketAddr :=
  SocketAddr.V6 { ip := ⟨0, 0, 0, 0, 0, 0, 0, 1⟩, port := 0, flowinfo := 0, scope_id := 0 }

/-- `FE80::1` (IPv6 link-local), port 0. -/
def addrLinkLocal6 : SocketAddr :=
  SocketAddr.V6 { ip := ⟨0xfe80, 0, 0, 0, 0, 0, 0, 1⟩, port := 0, flowinfo := 0, scope_id := 0 }

/-- `2001:db8::1` (IPv6 documentation range), port 0. -/
def addrDoc6 : SocketAddr :=
  SocketAddr.V6 { ip := ⟨0x2001, 0xdb8, 0, 0, 0, 0, 0, 1⟩, port := 0, flowinfo := 0, scope_id := 0 }

/-- The spec's synthetic address list
`[127.0.0.1, 192.168.1.5, ::1, FE80::1, 2001:db8::1]`. -/
def demoAddrs : List SocketAddr :=
  [addrLoopback4, addrPrivate4, addrLoopback6, addrLinkLocal6, addrDoc6]

/-- Spec-side: the addresses of a source sequence that survive both the
loopback/scope filter of `map_local` and the version filter of
`all_local_connectors`'s closure. -/
def surviving (policy : IpVersionMode) (addrs : List SocketAddr) : List SocketAddr :=
  addrs.filter (fun a => local_filter a && keeps policy a)

/-- Spec-side: the connector list the factory should produce from a source
sequence — one endpoint per surviving address, in order, bound to
`bound_target` with the given TTL. -/
def connectors_of (addrs : List SocketAddr) (ttl : Option Nat)
    (policy : IpVersionMode) : List UdpConnector :=
  (surviving policy addrs).map (fun a => { local_addr := bound_target a, ttl := ttl })

/-- `FE80::1` with a nonzero port (5000): a link-local v6 address whose
source-reported port is not 0. -/
def addrHighPort6 : SocketAddr :=
  SocketAddr.V6 { ip := ⟨0xfe80, 0, 0, 0, 0, 0, 0, 1⟩, port := 5000, flowinfo := 0, scope_id := 0 }

/-- A bind oracle for an OS that rejects every bind/configure request with
error code 7. -/
def failBind7 : BindOracle := fun _ _ => some ⟨7⟩

/-- A bind oracle for an OS that accepts binds to non-loopback, non-global
targets and rejects the rest with error code 5: a second, different OS
behaviour that still accepts every target the factory actually requests. -/
def loopbackRejectBind : BindOracle :=
  fun a _ => if local_filter a then none else some ⟨5⟩

/-- A closure that fails on every address it is handed, used to observe that
the filtering loop never hands it a filtered-out address. -/
def rejectAllClosure : SocketAddr → Except IoError (Option UdpConnector) :=
  fun _ => Except.error ⟨9⟩

/-- A synthetic interface table: an ordinary IPv4 interface, a raw
packet-capture device, and an interface with no assigned address. -/
def demoIfaces : List Interface :=
  [ { name := "eth0", kind := Kind.Ipv4, addr := some addrPrivate4 },
    { name := "pcap0", kind := Kind.Packet, addr := some addrLinkLocal6 },
    { name := "tun0", kind := Kind.Link, addr := none } ]

/-! ## Helper lemmas -/

/-- The factory's closure, restated through `keeps`/`bound_target`: it
constructs exactly for version-matching addresses, and answers `Ok(None)`
for the rest. -/
theorem connector_closure_eq (os : BindOracle) (ttl : Option Nat)
    (policy : IpVersionMode) (a : SocketAddr) :
    connector_closure os ttl policy a =
      if keeps policy a then (UdpConnector.new os (bound_target a) ttl).map some
      else Except.ok none := by
  cases policy <;> cases a <;>
    first
      | rfl
      | (rename_i n
         cases h : os (SocketAddr.V4 { ip := n.ip, port := 0 }) ttl <;>
           simp [connector_closure, keeps, bound_target, UdpConnector.new, h, Except.map])
      | (rename_i n
         cases h : os (SocketAddr.V6 n) ttl <;>
           simp [connector_closure, keeps, bound_target, UdpConnector.new, h, Except.map])

/-- On success, the filtering loop run with the factory's closure produces
exactly the canonical connector list. -/
theorem map_local_go_closure_ok (os : BindOracle) (ttl : Option Nat)
    (policy : IpVersionMode) (addrs : List SocketAddr) :
    ∀ cs, map_local_go (connector_closure os ttl policy) addrs = Except.ok cs →
      cs = connectors_of addrs ttl policy := by
  induction addrs with
  | nil =>
      intro cs h
      simp only [map_local_go] at h
      cases h
      rfl
  | cons a rest ih =>
      intro cs h
      simp only [map_local_go] at h
      by_cases hf : local_filter a = true
      · rw [if_pos hf, connector_closure_eq] at h
        by_cases hk : keeps policy a = true
        · rw [if_pos hk] at h
          cases hos : os (bound_target a) ttl with
          | some e => simp [UdpConnector.new, hos, Except.map] at h
          | none =>
              simp only [UdpConnector.new, hos, Except.map] at h
              cases hrest : map_local_go (connector_closure os ttl policy) rest with
              | error e => rw [hrest] at h; cases h
              | ok l =>
                  rw [hrest] at h
                  cases h
                  simp [connectors_of, surviving, hf, hk, ih l hrest]
        · rw [if_neg hk] at h
          have := ih cs h
          simp only [Bool.not_eq_true] at hk
          simp [connectors_of, surviving, hf, hk, this]
      · rw [if_neg hf] at h
        have := ih cs h
        simp only [Bool.not_eq_true] at hf
        simp [connectors_of, surviving, hf, this]

/-- On success, the factory produces exactly the canonical connector list. -/
theorem all_local_connectors_ok_eq (os : BindOracle) (addrs : List SocketAddr)
    (ttl : Option Nat) (policy : IpVersionMode) (cs : List UdpConnector)
    (h : all_local_connectors os (Except.ok addrs) ttl policy = Except.ok cs) :
    cs = connectors_of addrs ttl policy :=
  map_local_go_closure_ok os ttl policy addrs cs h

/-- Under an always-accepting OS, the factory succeeds and produces exactly
the canonical connector list. -/
theorem all_local_connectors_okBind (addrs : List SocketAddr) (ttl : Option Nat)
    (policy : IpVersionMode) :
    all_local_connectors okBind (Except.ok addrs) ttl policy =
      Except.ok (connectors_of addrs ttl policy) := by
  show map_local_go _ addrs = _
  induction addrs with
  | nil => rfl
  | cons a rest ih =>
      simp only [map_local_go, connector_closure_eq]
      by_cases hf : local_filter a = true
      · rw [if_pos hf]
        by_cases hk : keeps policy a = true
        · rw [if_pos hk]
          simp only [UdpConnector.new, okBind, Except.map, ih]
          simp [connectors_of, surviving, hf, hk]
        · rw [if_neg hk, ih]
          simp only [Bool.not_eq_true] at hk
          simp [connectors_of, surviving, hf, hk]
      · rw [if_neg hf, ih]
        simp only [Bool.not_eq_true] at hf
        simp [connectors_of, surviving, hf]

/-- The filtering loop only consults the closure on addresses passing the
loopback/scope guard: two closures agreeing there produce the same result. -/
theorem map_local_go_congr {R : Type}
    (f g : SocketAddr → Except IoError (Option R)) (addrs : List SocketAddr)
    (hagree : ∀ a, a ∈ addrs → local_filter a = true → f a = g a) :
    map_local_go f addrs = map_local_go g addrs := by
  induction addrs with
  | nil => rfl
  | cons a rest ih =>
      have ihrest : map_local_go f rest = map_local_go g rest :=
        ih (fun a ha hf => hagree a (List.mem_cons_of_mem _ ha) hf)
      simp only [map_local_go]
      by_cases hf : local_filter a = true
      · rw [if_pos hf, if_pos hf, hagree a (List.mem_cons_self a rest) hf, ihrest]
      · rw [if_neg hf, if_neg hf, ihrest]

/-- When no address survives both filters, the loop touches no construction
and succeeds with the empty list, whatever the OS would answer. -/
theorem map_local_go_no_survivor (os : BindOracle) (ttl : Option Nat)
    (policy : IpVersionMode) (addrs : List SocketAddr)
    (hnone : surviving policy addrs = []) :
    map_local_go (connector_closure os ttl policy) addrs = Except.ok [] := by
  induction addrs with
  | nil => rfl
  | cons a rest ih =>
      simp only [surviving, List.filter_cons] at hnone
      by_cases hs : (local_filter a && keeps policy a) = true
      · rw [if_pos hs] at hnone
        cases hnone
      · rw [if_neg hs] at hnone
        have hrest := ih hnone
        simp only [Bool.and_eq_true, not_and] at hs
        simp only [map_local_go]
        by_cases hf : local_filter a = true
        · rw [if_pos hf, connector_closure_eq, if_neg (hs hf), hrest]
        · rw [if_neg hf, hrest]

/-- If the loop fails, the error is a bind/configure failure reported by the
OS for the target of some surviving address. -/
theorem map_local_go_error_exists (os : BindOracle) (ttl : Option Nat)
    (policy : IpVersionMode) (addrs : List SocketAddr) (e : IoError)
    (h : map_local_go (connector_closure os ttl policy) addrs = Except.error e) :
    ∃ a, a ∈ surviving policy addrs ∧ os (bound_target a) ttl = some e := by
  induction addrs with
  | nil => cases h
  | cons a rest ih =>
      simp only [map_local_go] at h
      by_cases hf : local_filter a = true
      · rw [if_pos hf, connector_closure_eq] at h
        by_cases hk : keeps policy a = true
        · rw [if_pos hk] at h
          cases hos : os (bound_target a) ttl with
          | some e0 =>
              simp only [UdpConnector.new, hos, Except.map] at h
              cases h
              exact ⟨a, by simp [surviving, List.filter_cons, hf, hk], hos⟩
          | none =>
              simp only [UdpConnector.new, hos, Except.map] at h
              cases hrest : map_local_go (connector_closure os ttl policy) rest with
              | error e0 =>
                  rw [hrest] at h
                  cases h
                  obtain ⟨a0, ha0, hosa0⟩ := ih hrest
                  refine ⟨a0, ?_, hosa0⟩
                  simp only [surviving, List.filter_cons, hf, hk, Bool.and_self, if_true,
                    List.mem_cons] at ha0 ⊢
                  exact Or.inr ha0
              | ok l => rw [hrest] at h; cases h
        · rw [if_neg hk] at h
          obtain ⟨a0, ha0, hosa0⟩ := ih h
          refine ⟨a0, ?_, hosa0⟩
          simp only [Bool.not_eq_true] at hk
          simpa [surviving, List.filter_cons, hf, hk] using ha0
      · rw [if_neg hf] at h
        obtain ⟨a0, ha0, hosa0⟩ := ih h
        refine ⟨a0, ?_, hosa0⟩
        simp only [Bool.not_eq_true] at hf
        simpa [surviving, List.filter_cons, hf] using ha0

/-- If the first surviving address whose bind/configure request the OS
rejects fails with `e`, the whole loop fails with exactly `e`. -/
theorem map_local_go_first_fail (os : BindOracle) (ttl : Option Nat)
    (policy : IpVersionMode) (addrs : List SocketAddr) (a0 : SocketAddr) (e : IoError)
    (hfind : (surviving policy addrs).find?
        (fun a => (os (bound_target a) ttl).isSome) = some a0)
    (hos0 : os (bound_target a0) ttl = some e) :
    map_local_go (connector_closure os ttl policy) addrs = Except.error e := by
  induction addrs with
  | nil => cases hfind
  | cons a rest ih =>
      simp only [surviving, List.filter_cons] at hfind
      by_cases hs : (local_filter a && keeps policy a) = true
      · rw [if_pos hs] at hfind
        obtain ⟨hf, hk⟩ : local_filter a = true ∧ keeps policy a = true := by
          simpa [Bool.and_eq_true] using hs
        rw [List.find?_cons] at hfind
        simp only [map_local_go, if_pos hf, connector_closure_eq, if_pos hk]
        cases hos : os (bound_target a) ttl with
        | some e1 =>
            rw [hos] at hfind
            simp only [Option.isSome_some, cond_true] at hfind
            cases hfind
            rw [hos0] at hos
            cases hos
            simp [UdpConnector.new, hos0, Except.map]
        | none =>
            rw [hos] at hfind
            simp only [Option.isSome_none, cond_false] at hfind
            simp [UdpConnector.new, hos, Except.map, ih hfind]
      · rw [if_neg hs] at hfind
        simp only [Bool.and_eq_true, not_and] at hs
        simp only [map_local_go]
        by_cases hf : local_filter a = true
        · rw [if_pos hf, connector_closure_eq,
            if_neg (by simpa using hs hf), ih hfind]
        · rw [if_neg hf, ih hfind]

/-- The `Any` survivors are a permutation of the `V4Only` survivors followed
by the `V6Only` survivors. -/
theorem surviving_any_perm (addrs : List SocketAddr) :
    List.Perm (surviving IpVersionMode.Any addrs)
      (surviving IpVersionMode.V4Only addrs ++ surviving IpVersionMode.V6Only addrs) := by
  induction addrs with
  | nil => rfl
  | cons a rest ih =>
      cases a with
      | V4 n =>
          by_cases hf : local_filter (SocketAddr.V4 n) = true
          · simpa [surviving, List.filter_cons, hf, keeps] using ih.cons (SocketAddr.V4 n)
          · simpa [surviving, List.filter_cons, hf] using ih
      | V6 n =>
          by_cases hf : local_filter (SocketAddr.V6 n) = true
          · simp only [surviving, List.filter_cons, hf, keeps, Bool.and_true, Bool.and_false,
              if_true, if_false, Bool.true_and, Bool.false_and]
            simpa [surviving] using (ih.cons (SocketAddr.V6 n)).trans List.perm_middle.symm
          · simpa [surviving, List.filter_cons, hf] using ih

/-- Membership in the survivor list, unfolded. -/
theorem mem_surviving (policy : IpVersionMode) (addrs : List SocketAddr) (a : SocketAddr) :
    a ∈ surviving policy addrs ↔
      a ∈ addrs ∧ local_filter a = true ∧ keeps policy a = true := by
  simp [surviving, List.mem_filter, Bool.and_eq_true, and_assoc]

/-- Mapping over a filtered list is a `filterMap` of the original list. -/
theorem filter_map_eq_filterMap {α β : Type} (p : α → Bool) (f : α → β) :
    ∀ l : List α,
      (l.filter p).map f = l.filterMap (fun a => if p a then some (f a) else none) := by
  intro l
  induction l with
  | nil => rfl
  | cons a rest ih =>
      simp only [List.filter_cons, List.filterMap_cons]
      by_cases hp : p a = true
      · rw [if_pos hp, if_pos hp]
        simp [ih]
      · rw [if_neg hp, if_neg hp]
        simp [ih]

/-! ## Claim theorems -/

/-- C1 (counterexample): at the spec's synthetic input with policy `Any`,
the surviving bound addresses are NOT exactly {192.168.1.5, FE80::1}: the
factory also returns an endpoint bound to the documentation-range address
`2001:db8::1`, which Rust's `Ipv6Addr::is_global` does not classify as
global, so the claimed output set is wrong at this input. -/
theorem C1_counterexample :
    all_local_connectors okBind (Except.ok demoAddrs) none IpVersionMode.Any =
      Except.ok [ { local_addr := addrPrivate4, ttl := none },
                  { local_addr := addrLinkLocal6, ttl := none },
                  { local_addr := addrDoc6, ttl := none } ] ∧
    addrDoc6 ≠ addrPrivate4 ∧ addrDoc6 ≠ addrLinkLocal6 :=
  ⟨rfl, by decide, by decide⟩

/-- C1 (amended): for every address sequence, the factory (with every bind
accepted) returns exactly one endpoint per address that passes the
loopback filter and, for IPv6, is not `is_global` — a predicate under which
documentation-range `2001:db8::/32` addresses are NOT global — and whose
version matches the policy, and no endpoint for any other address; at the
synthetic input with policy `Any` the surviving bound addresses are exactly
192.168.1.5, FE80::1 and 2001:db8::1. -/
theorem C1_factory_exact_survivors :
    (∀ (addrs : List SocketAddr) (ttl : Option Nat) (policy : IpVersionMode),
        all_local_connectors okBind (Except.ok addrs) ttl policy =
          Except.ok (connectors_of addrs ttl policy)) ∧
    all_local_connectors okBind (Except.ok demoAddrs) none IpVersionMode.Any =
      Except.ok [ { local_addr := addrPrivate4, ttl := none },
                  { local_addr := addrLinkLocal6, ttl := none },
                  { local_addr := addrDoc6, ttl := none } ] :=
  ⟨all_local_connectors_okBind, rfl⟩

/-- C1 (witness): the general part of the amended claim, instantiated at the
synthetic list with policy `V4Only`. -/
theorem C1_witness :
    all_local_connectors okBind (Except.ok demoAddrs) none IpVersionMode.V4Only =
      Except.ok (connectors_of demoAddrs none IpVersionMode.V4Only) :=
  C1_factory_exact_survivors.1 demoAddrs none IpVersionMode.V4Only

/-- C2 (counterexample): a surviving IPv6 address carrying port 5000 yields
an endpoint bound to that address with port 5000, not port 0 — the factory
does not force port 0 on the IPv6 side. -/
theorem C2_counterexample :
    all_local_connectors okBind (Except.ok [addrHighPort6]) none IpVersionMode.Any =
      Except.ok [{ local_addr := addrHighPort6, ttl := none }] ∧
    SocketAddr.port addrHighPort6 = 5000 :=
  ⟨rfl, rfl⟩

/-- C2 (amended): every produced endpoint comes from a surviving source
address and is bound to its `bound_target` with the requested TTL: for an
IPv4 survivor the bound port is 0 regardless of the source port, while for
an IPv6 survivor the bound address is the source socket address itself,
port included. -/
theorem C2_bound_ports (os : BindOracle) (addrs : List SocketAddr)
    (ttl : Option Nat) (policy : IpVersionMode) (cs : List UdpConnector)
    (h : all_local_connectors os (Except.ok addrs) ttl policy = Except.ok cs) :
    ∀ c ∈ cs, ∃ a, a ∈ addrs ∧ local_filter a = true ∧ keeps policy a = true ∧
      c.local_addr = bound_target a ∧ c.ttl = ttl ∧
      (a.isV4 = true → c.local_addr.port = 0) ∧
      (a.isV6 = true → c.local_addr = a) := by
  intro c hc
  rw [all_local_connectors_ok_eq os addrs ttl policy cs h] at hc
  simp only [connectors_of, List.mem_map] at hc
  obtain ⟨a, ha, rfl⟩ := hc
  rw [mem_surviving] at ha
  obtain ⟨hmem, hf, hk⟩ := ha
  refine ⟨a, hmem, hf, hk, rfl, rfl, ?_, ?_⟩
  · intro hv4
    cases a with
    | V4 n => rfl
    | V6 n => simp [SocketAddr.isV4] at hv4
  · intro hv6
    cases a with
    | V4 n => simp [SocketAddr.isV6] at hv6
    | V6 n => rfl

/-- C2 (witness): the amended claim instantiated at the synthetic list with
policy `Any`, for the endpoint bound to 192.168.1.5. -/
theorem C2_witness :
    ∃ a, a ∈ demoAddrs ∧ local_filter a = true ∧ keeps IpVersionMode.Any a = true ∧
      (UdpConnector.mk addrPrivate4 none).local_addr = bound_target a ∧
      (UdpConnector.mk addrPrivate4 none).ttl = none ∧
      (a.isV4 = true → (UdpConnector.mk addrPrivate4 none).local_addr.port = 0) ∧
      (a.isV6 = true → (UdpConnector.mk addrPrivate4 none).local_addr = a) :=
  C2_bound_ports okBind demoAddrs none IpVersionMode.Any
    [ ⟨addrPrivate4, none⟩, ⟨addrLinkLocal6, none⟩, ⟨addrDoc6, none⟩ ] rfl
    ⟨addrPrivate4, none⟩ (by decide)

/-- C3: for a fixed address sequence, TTL and environment, the multiset of
bound addresses produced under `Any` is exactly the disjoint union of those
produced under `V4Only` and `V6Only` (a permutation of their
concatenation), every `V4Only` endpoint is bound to an IPv4 address, and
every `V6Only` endpoint to an IPv6 address. -/
theorem C3_any_is_disjoint_union (os : BindOracle) (addrs : List SocketAddr)
    (ttl : Option Nat) (csA cs4 cs6 : List UdpConnector)
    (hA : all_local_connectors os (Except.ok addrs) ttl IpVersionMode.Any = Except.ok csA)
    (h4 : all_local_connectors os (Except.ok addrs) ttl IpVersionMode.V4Only = Except.ok cs4)
    (h6 : all_local_connectors os (Except.ok addrs) ttl IpVersionMode.V6Only = Except.ok cs6) :
    List.Perm (csA.map UdpConnector.local_addr)
      (cs4.map UdpConnector.local_addr ++ cs6.map UdpConnector.local_addr) ∧
    (∀ c ∈ cs4, c.local_addr.isV4 = true) ∧
    (∀ c ∈ cs6, c.local_addr.isV6 = true) := by
  rw [all_local_connectors_ok_eq os addrs ttl _ csA hA,
      all_local_connectors_ok_eq os addrs ttl _ cs4 h4,
      all_local_connectors_ok_eq os addrs ttl _ cs6 h6]
  refine ⟨?_, ?_, ?_⟩
  · have hp := (surviving_any_perm addrs).map bound_target
    rw [List.map_append] at hp
    simpa [connectors_of, List.map_map, Function.comp] using hp
  · intro c hc
    simp only [connectors_of, List.mem_map] at hc
    obtain ⟨a, ha, rfl⟩ := hc
    rw [mem_surviving] at ha
    obtain ⟨-, -, hk⟩ := ha
    cases a with
    | V4 n => rfl
    | V6 n => simp [keeps] at hk
  · intro c hc
    simp only [connectors_of, List.mem_map] at hc
    obtain ⟨a, ha, rfl⟩ := hc
    rw [mem_surviving] at ha
    obtain ⟨-, -, hk⟩ := ha
    cases a with
    | V4 n => simp [keeps] at hk
    | V6 n => rfl

/-- C3 (witness): the partition property instantiated at the synthetic list
under an always-accepting OS. -/
theorem C3_witness :
    List.Perm (([ { local_addr := addrPrivate4, ttl := none },
                  { local_addr := addrLinkLocal6, ttl := none },
                  { local_addr := addrDoc6, ttl := none } ] : List UdpConnector).map
        UdpConnector.local_addr)
      (([ { local_addr := addrPrivate4, ttl := none } ] : List UdpConnector).map
          UdpConnector.local_addr ++
        ([ { local_addr := addrLinkLocal6, ttl := none },
           { local_addr := addrDoc6, ttl := none } ] : List UdpConnector).map
          UdpConnector.local_addr) ∧
    (∀ c ∈ ([ { local_addr := addrPrivate4, ttl := none } ] : List UdpConnector),
        c.local_addr.isV4 = true) ∧
    (∀ c ∈ ([ { local_addr := addrLinkLocal6, ttl := none },
              { local_addr := addrDoc6, ttl := none } ] : List UdpConnector),
        c.local_addr.isV6 = true) :=
  C3_any_is_disjoint_union okBind demoAddrs none _ _ _ rfl rfl rfl

/-- C4: if address enumeration fails the factory fails with that same
error, and if the OS rejects the bind/configure request of the first
surviving address it rejects at all, the factory fails with exactly that
construction error — in both cases no endpoint list is returned. -/
theorem C4_all_or_nothing :
    (∀ (os : BindOracle) (ttl : Option Nat) (policy : IpVersionMode) (e : IoError),
        all_local_connectors os (Except.error e) ttl policy = Except.error e) ∧
    (∀ (os : BindOracle) (addrs : List SocketAddr) (ttl : Option Nat)
        (policy : IpVersionMode) (a0 : SocketAddr) (e : IoError),
        (surviving policy addrs).find? (fun a => (os (bound_target a) ttl).isSome) = some a0 →
        os (bound_target a0) ttl = some e →
        all_local_connectors os (Except.ok addrs) ttl policy = Except.error e) :=
  ⟨fun _ _ _ _ => rfl,
   fun os addrs ttl policy a0 e h1 h2 => map_local_go_first_fail os ttl policy addrs a0 e h1 h2⟩

/-- C4 (witness): enumeration failure with code 3 propagates, and an OS
rejecting every bind with code 7 makes the factory fail with code 7 at the
synthetic list. -/
theorem C4_witness :
    all_local_connectors failBind7 (Except.error ⟨3⟩) none IpVersionMode.Any =
      Except.error ⟨3⟩ ∧
    all_local_connectors failBind7 (Except.ok demoAddrs) none IpVersionMode.Any =
      Except.error ⟨7⟩ :=
  ⟨C4_all_or_nothing.1 failBind7 none IpVersionMode.Any ⟨3⟩,
   C4_all_or_nothing.2 failBind7 demoAddrs none IpVersionMode.Any addrPrivate4 ⟨7⟩ rfl rfl⟩

/-- C5: when no address survives the filters — in particular when the
address sequence is empty — the factory succeeds with the empty endpoint
list, whatever the OS would answer to bind requests. -/
theorem C5_empty_is_ok (os : BindOracle) (ttl : Option Nat) (policy : IpVersionMode)
    (addrs : List SocketAddr) (hnone : surviving policy addrs = []) :
    all_local_connectors os (Except.ok addrs) ttl policy = Except.ok [] :=
  map_local_go_no_survivor os ttl policy addrs hnone

/-- C5 (witness): the empty list and an all-loopback list both yield
`Ok([])`, even under an OS that would reject every bind. -/
theorem C5_witness :
    all_local_connectors failBind7 (Except.ok []) none IpVersionMode.Any = Except.ok [] ∧
    all_local_connectors failBind7 (Except.ok [addrLoopback4, addrLoopback6]) none
      IpVersionMode.Any = Except.ok [] :=
  ⟨C5_empty_is_ok failBind7 none IpVersionMode.Any [] rfl,
   C5_empty_is_ok failBind7 none IpVersionMode.Any [addrLoopback4, addrLoopback6] rfl⟩

/-- C6: the protocol constants are bit-exact — IPv4 multicast discovery
address "239.255.255.250", IPv6 link-local multicast discovery address
"FF02::C", well-known SSDP port 1900, default multicast TTL 2. -/
theorem C6_constants :
    UPNP_MULTICAST_IPV4_ADDR = "239.255.255.250" ∧
    UPNP_MULTICAST_IPV6_LINK_LOCAL_ADDR = "FF02::C" ∧
    UPNP_MULTICAST_PORT = 1900 ∧
    UPNP_MULTICAST_TTL = 2 :=
  ⟨rfl, rfl, rfl, rfl⟩

/-- C7: on success the factory's output is an order-preserving filter-map
of the source sequence — it equals `List.filterMap` of an explicit per-
address function — and its length is at most the number of source
addresses. -/
theorem C7_order_preserving (os : BindOracle) (addrs : List SocketAddr)
    (ttl : Option Nat) (policy : IpVersionMode) (cs : List UdpConnector)
    (h : all_local_connectors os (Except.ok addrs) ttl policy = Except.ok cs) :
    cs = addrs.filterMap (fun a =>
        if local_filter a && keeps policy a then
          some { local_addr := bound_target a, ttl := ttl }
        else none) ∧
    cs.length ≤ addrs.length := by
  have hcs := all_local_connectors_ok_eq os addrs ttl policy cs h
  constructor
  · rw [hcs]
    simpa [connectors_of, surviving] using
      filter_map_eq_filterMap (fun a => local_filter a && keeps policy a)
        (fun a => ({ local_addr := bound_target a, ttl := ttl } : UdpConnector)) addrs
  · rw [hcs]
    simp only [connectors_of, List.length_map, surviving]
    exact List.length_filter_le _ addrs

/-- C7 (witness): the filter-map shape and length bound at the synthetic
list with policy `Any`. -/
theorem C7_witness :
    ([ { local_addr := addrPrivate4, ttl := none },
       { local_addr := addrLinkLocal6, ttl := none },
       { local_addr := addrDoc6, ttl := none } ] : List UdpConnector) =
      demoAddrs.filterMap (fun a =>
        if local_filter a && keeps IpVersionMode.Any a then
          some { local_addr := bound_target a, ttl := none }
        else none) ∧
    ([ { local_addr := addrPrivate4, ttl := none },
       { local_addr := addrLinkLocal6, ttl := none },
       { local_addr := addrDoc6, ttl := none } ] : List UdpConnector).length ≤
      demoAddrs.length :=
  C7_order_preserving okBind demoAddrs none IpVersionMode.Any _ rfl

/-- C8: for a fixed TTL, policy and address sequence, any two successful
invocations — even against different OS bind behaviours — yield endpoints
bound to the same addresses: the bound-address list is a deterministic
function of the inputs. -/
theorem C8_bound_set_deterministic (os1 os2 : BindOracle) (addrs : List SocketAddr)
    (ttl : Option Nat) (policy : IpVersionMode) (cs1 cs2 : List UdpConnector)
    (h1 : all_local_connectors os1 (Except.ok addrs) ttl policy = Except.ok cs1)
    (h2 : all_local_connectors os2 (Except.ok addrs) ttl policy = Except.ok cs2) :
    cs1.map UdpConnector.local_addr = cs2.map UdpConnector.local_addr := by
  rw [all_local_connectors_ok_eq os1 addrs ttl policy cs1 h1,
      all_local_connectors_ok_eq os2 addrs ttl policy cs2 h2]

/-- C8 (witness): two invocations at the synthetic list under two different
accepting OS behaviours produce the same bound-address list. -/
theorem C8_witness :
    ([ { local_addr := addrPrivate4, ttl := none },
       { local_addr := addrLinkLocal6, ttl := none },
       { local_addr := addrDoc6, ttl := none } ] : List UdpConnector).map
        UdpConnector.local_addr =
      ([ { local_addr := addrPrivate4, ttl := none },
         { local_addr := addrLinkLocal6, ttl := none },
         { local_addr := addrDoc6, ttl := none } ] : List UdpConnector).map
        UdpConnector.local_addr :=
  C8_bound_set_deterministic okBind loopbackRejectBind demoAddrs none IpVersionMode.Any
    _ _ rfl rfl

/-- C9: the non-Windows address source returns exactly the assigned
addresses of enumerated interfaces that are not raw packet-capture
devices: an address is in the result iff some non-`Packet` interface
carries it. -/
theorem C9_interface_strategy (ifaceList : List Interface) (res : List SocketAddr)
    (h : get_local_addrs (Except.ok ifaceList) = Except.ok res) :
    ∀ a, a ∈ res ↔ ∃ i, i ∈ ifaceList ∧ i.kind ≠ Kind.Packet ∧ i.addr = some a := by
  simp only [get_local_addrs, Except.ok.injEq] at h
  subst h
  intro a
  simp [List.mem_filterMap, List.mem_filter, and_assoc]

/-- C9 (witness): at a three-interface table (ordinary IPv4, packet-capture,
address-less), the result contains 192.168.1.5 and the characterization
holds for it. -/
theorem C9_witness :
    addrPrivate4 ∈ [addrPrivate4] ↔
      ∃ i, i ∈ demoIfaces ∧ i.kind ≠ Kind.Packet ∧ i.addr = some addrPrivate4 :=
  C9_interface_strategy demoIfaces [addrPrivate4] rfl addrPrivate4

/-- C10: the loop never consults the closure on an address rejected by the
loopback/scope guard (its result is invariant under changing the closure
there); the factory's closure answers `Ok(None)` without constructing
anything on a version-mismatched address; hence any factory failure on a
successfully enumerated list is a bind failure of an address that passed
both filters. -/
theorem C10_rejected_never_constructed :
    (∀ (R : Type) (f g : SocketAddr → Except IoError (Option R)) (addrs : List SocketAddr),
        (∀ a, a ∈ addrs → local_filter a = true → f a = g a) →
        map_local_go f addrs = map_local_go g addrs) ∧
    (∀ (os : BindOracle) (ttl : Option Nat) (policy : IpVersionMode) (a : SocketAddr),
        keeps policy a = false →
        connector_closure os ttl policy a = Except.ok none) ∧
    (∀ (os : BindOracle) (addrs : List SocketAddr) (ttl : Option Nat)
        (policy : IpVersionMode) (e : IoError),
        all_local_connectors os (Except.ok addrs) ttl policy = Except.error e →
        ∃ a, a ∈ addrs ∧ local_filter a = true ∧ keeps policy a = true ∧
          os (bound_target a) ttl = some e) := by
  refine ⟨fun R f g addrs hagree => map_local_go_congr f g addrs hagree, ?_, ?_⟩
  · intro os ttl policy a hk
    rw [connector_closure_eq, if_neg (by simp [hk])]
  · intro os addrs ttl policy e h
    obtain ⟨a, ha, hos⟩ := map_local_go_error_exists os ttl policy addrs e h
    rw [mem_surviving] at ha
    exact ⟨a, ha.1, ha.2.1, ha.2.2, hos⟩

/-- C10 (witness): on an all-loopback list the loop equals the loop run
with an always-failing closure; the closure answers `Ok(None)` on a v6
address under `V4Only`; and the failure of an all-rejecting OS at the
synthetic list is traceable to a filter-passing address. -/
theorem C10_witness :
    map_local_go (connector_closure okBind none IpVersionMode.Any)
        [addrLoopback4, addrLoopback6] =
      map_local_go rejectAllClosure [addrLoopback4, addrLoopback6] ∧
    connector_closure okBind none IpVersionMode.V4Only addrLinkLocal6 = Except.ok none ∧
    (∃ a, a ∈ demoAddrs ∧ local_filter a = true ∧ keeps IpVersionMode.Any a = true ∧
      failBind7 (bound_target a) none = some ⟨7⟩) :=
  ⟨C10_rejected_never_constructed.1 UdpConnector
      (connector_closure okBind none IpVersionMode.Any) rejectAllClosure
      [addrLoopback4, addrLoopback6]
      (by
        intro a ha hf
        rcases List.mem_cons.mp ha with rfl | ha
        · exact absurd hf (by decide)
        · rcases List.mem_cons.mp ha with rfl | ha
          · exact absurd hf (by decide)
          · cases ha),
   C10_rejected_never_constructed.2.1 okBind none IpVersionMode.V4Only addrLinkLocal6 rfl,
   C10_rejected_never_constructed.2.2 failBind7 demoAddrs none IpVersionMode.Any ⟨7⟩ rfl⟩

end Ssdp

